import Mathlib

/-!
Verification development for the smchousingmcp repository.

The definitions below are shallow embeddings of the Python source files:
`cache_manager.py` (tiered cache), `dashboard.py` (number/currency/status
extraction heuristics), `server.py` (JSON-RPC style dispatch), `notices.py`
(public notice sorting and filtering) and `income_limits.py` (eligibility
checking).  Machine times are modelled as natural-number seconds, Python
floats that are only parsed from decimal literals and compared are modelled
as rationals, Python dicts built in a fixed insertion order are modelled as
association lists in that order.
-/

set_option maxHeartbeats 1000000

/-! ### Cache model (`cache_manager.py`) -/

/-- Embedding of the `CacheEntry` pydantic model (`models.py`): the cached
data together with its expiry instant (seconds). -/
structure CacheEntry (α : Type) where
  data : α
  expiresAt : Nat
deriving Repr, DecidableEq

/-- One cache tier seen as a partial map from keys to entries. -/
def Tier (α : Type) : Type := String → Option (CacheEntry α)

/-- State of `CacheManager`: the in-memory dict, the optional Redis client
(each Redis slot also records the TTL in seconds passed to `setex`), and the
file-per-key JSON cache directory. -/
structure CacheState (α : Type) where
  memory : Tier α
  redis : Option (String → Option (CacheEntry α × Nat))
  file : Tier α

/-- Point update of a tier, as performed by `self._memory_cache[key] = entry`
or by writing the JSON file for `key`. -/
def tierInsert {α : Type} (m : Tier α) (k : String) (e : CacheEntry α) : Tier α :=
  fun k' => if k' = k then some e else m k'

/-- Point deletion from a tier (`del self._memory_cache[key]`,
`cache_file.unlink()`). -/
def tierDelete {α : Type} (m : Tier α) (k : String) : Tier α :=
  fun k' => if k' = k then none else m k'

/-- Redis `setex key ttl_seconds entry`. -/
def redisInsert {α : Type} (r : String → Option (CacheEntry α × Nat)) (k : String)
    (v : CacheEntry α × Nat) : String → Option (CacheEntry α × Nat) :=
  fun k' => if k' = k then some v else r k'

/-- Redis `delete key`. -/
def redisDelete {α : Type} (r : String → Option (CacheEntry α × Nat)) (k : String) :
    String → Option (CacheEntry α × Nat) :=
  fun k' => if k' = k then none else r k'

/-- File-cache stage of `CacheManager.get` (`cache_manager.py:64-86`): read
the per-key JSON file; if the stored `expires_at` is strictly in the future,
promote the entry to the memory dict and return its data, otherwise unlink
the file; with no file the lookup misses. -/
def cacheGetFile {α : Type} (s : CacheState α) (key : String) (now : Nat) :
    Option α × CacheState α :=
  match s.file key with
  | some e =>
    if now < e.expiresAt then
      (some e.data, { s with memory := tierInsert s.memory key e })
    else
      (none, { s with file := tierDelete s.file key })
  | none => (none, s)

/-- Redis stage of `CacheManager.get` (`cache_manager.py:48-62`): when a
Redis client is configured and holds the key, an unexpired entry is promoted
to the memory dict and returned; an expired entry is deleted from Redis and
the lookup falls through to the file cache. -/
def cacheGetRedis {α : Type} (s : CacheState α) (key : String) (now : Nat) :
    Option α × CacheState α :=
  match s.redis with
  | some r =>
    match r key with
    | some (e, _ttl) =>
      if now < e.expiresAt then
        (some e.data, { s with memory := tierInsert s.memory key e })
      else
        cacheGetFile { s with redis := some (redisDelete r key) } key now
    | none => cacheGetFile s key now
  | none => cacheGetFile s key now

/-- Embedding of `CacheManager.get` (`cache_manager.py:36-93`): memory dict
first (expired entries are deleted and the lookup continues), then Redis,
then the per-key JSON file. -/
def cacheGet {α : Type} (s : CacheState α) (key : String) (now : Nat) :
    Option α × CacheState α :=
  match s.memory key with
  | some e =>
    if now < e.expiresAt then (some e.data, s)
    else cacheGetRedis { s with memory := tierDelete s.memory key } key now
  | none => cacheGetRedis s key now

/-- Embedding of `CacheManager.set` (`cache_manager.py:95-142`).
`settingsTtl` stands for `settings.cache_ttl_hours`; a missing `ttl_hours`
argument defaults to it.  The entry expiring `ttl_hours` hours from `now`
is written to the memory dict, to Redis (with `ttl_hours*3600` seconds of
TTL) when a client is configured, and to the per-key JSON file; `True` is
returned. -/
def cacheSet {α : Type} (settingsTtl : Nat) (s : CacheState α) (key : String)
    (d : α) (ttlHours : Option Nat) (now : Nat) : Bool × CacheState α :=
  let t := ttlHours.getD settingsTtl
  let e : CacheEntry α := ⟨d, now + t * 3600⟩
  let mem := tierInsert s.memory key e
  let red := match s.redis with
    | some r => some (redisInsert r key (e, t * 3600))
    | none => none
  let fil := tierInsert s.file key e
  (true, ⟨mem, red, fil⟩)

/-- Modelled from the spec wording of claim C1: the tiers are consulted in
the fixed order memory dict, external KV store (when configured), per-key
JSON file, and the data of the first entry found whose `expires_at` is
strictly later than the current time is returned; if no tier holds such an
entry the result is `none`. -/
def tieredLookupSpecC1 {α : Type} (s : CacheState α) (key : String) (now : Nat) :
    Option α :=
  let tiers : List (Option (CacheEntry α)) :=
    [s.memory key] ++
      (match s.redis with
       | some r => [(r key).map Prod.fst]
       | none => []) ++
      [s.file key]
  tiers.findSome? (fun o => o.bind (fun e =>
    if now < e.expiresAt then some e.data else none))

/-- C1: `CacheManager.get` consults the tiers in the fixed order memory
dict, Redis (when configured), JSON file, and returns the data of the first
entry whose `expires_at` is strictly later than the current time, else
`None`. -/
theorem c1_cacheGet_tiered_lookup {α : Type} (s : CacheState α) (key : String)
    (now : Nat) : (cacheGet s key now).1 = tieredLookupSpecC1 s key now := by
  unfold cacheGet cacheGetRedis cacheGetFile tieredLookupSpecC1
  cases hm : s.memory key with
  | some e =>
    by_cases he : now < e.expiresAt
    · simp [*]
    · simp only [he, if_false]
      cases hr : s.redis with
      | some r =>
        cases hrk : r key with
        | some p =>
          by_cases hpe : now < p.1.expiresAt
          · simp [*]
          · simp only [hpe, if_false]
            cases hf : s.file key with
            | some ef =>
              by_cases hfe : now < ef.expiresAt <;> simp [*]
            | none => simp [*]
        | none =>
          cases hf : s.file key with
          | some ef =>
            by_cases hfe : now < ef.expiresAt <;> simp [*]
          | none => simp [*]
      | none =>
        cases hf : s.file key with
        | some ef =>
          by_cases hfe : now < ef.expiresAt <;> simp [*]
        | none => simp [*]
  | none =>
    cases hr : s.redis with
    | some r =>
      cases hrk : r key with
      | some p =>
        by_cases hpe : now < p.1.expiresAt
        · simp [*]
        · simp only [hpe, if_false]
          cases hf : s.file key with
          | some ef =>
            by_cases hfe : now < ef.expiresAt <;> simp [*]
          | none => simp [*]
      | none =>
        cases hf : s.file key with
        | some ef =>
          by_cases hfe : now < ef.expiresAt <;> simp [*]
        | none => simp [*]
    | none =>
      cases hf : s.file key with
      | some ef =>
        by_cases hfe : now < ef.expiresAt <;> simp [*]
      | none => simp [*]

/-- Equation: file stage on a fresh file entry. -/
theorem cacheGetFile_eq_fresh {α : Type} {s : CacheState α} {key : String} {now : Nat}
    {e : CacheEntry α} (hf : s.file key = some e) (hfe : now < e.expiresAt) :
    cacheGetFile s key now =
      (some e.data, { s with memory := tierInsert s.memory key e }) := by
  unfold cacheGetFile
  rw [hf]
  simp [hfe]

/-- Equation: file stage on a stale file entry. -/
theorem cacheGetFile_eq_stale {α : Type} {s : CacheState α} {key : String} {now : Nat}
    {e : CacheEntry α} (hf : s.file key = some e) (hfe : ¬ now < e.expiresAt) :
    cacheGetFile s key now = (none, { s with file := tierDelete s.file key }) := by
  unfold cacheGetFile
  rw [hf]
  simp [hfe]

/-- Equation: file stage with no file. -/
theorem cacheGetFile_eq_none {α : Type} {s : CacheState α} {key : String} {now : Nat}
    (hf : s.file key = none) : cacheGetFile s key now = (none, s) := by
  unfold cacheGetFile
  rw [hf]

/-- Equation: Redis stage with no client configured. -/
theorem cacheGetRedis_eq_noclient {α : Type} {s : CacheState α} {key : String}
    {now : Nat} (hr : s.redis = none) :
    cacheGetRedis s key now = cacheGetFile s key now := by
  unfold cacheGetRedis
  rw [hr]

/-- Equation: Redis stage with a client that misses. -/
theorem cacheGetRedis_eq_miss {α : Type} {s : CacheState α} {key : String} {now : Nat}
    {r : String → Option (CacheEntry α × Nat)} (hr : s.redis = some r)
    (hrk : r key = none) : cacheGetRedis s key now = cacheGetFile s key now := by
  unfold cacheGetRedis
  rw [hr]
  simp only
  rw [hrk]

/-- Equation: Redis stage on a fresh Redis entry. -/
theorem cacheGetRedis_eq_fresh {α : Type} {s : CacheState α} {key : String} {now : Nat}
    {r : String → Option (CacheEntry α × Nat)} {e : CacheEntry α} {ttl : Nat}
    (hr : s.redis = some r) (hrk : r key = some (e, ttl)) (he : now < e.expiresAt) :
    cacheGetRedis s key now =
      (some e.data, { s with memory := tierInsert s.memory key e }) := by
  unfold cacheGetRedis
  rw [hr]
  simp only
  rw [hrk]
  simp [he]

/-- Equation: Redis stage on a stale Redis entry. -/
theorem cacheGetRedis_eq_stale {α : Type} {s : CacheState α} {key : String} {now : Nat}
    {r : String → Option (CacheEntry α × Nat)} {e : CacheEntry α} {ttl : Nat}
    (hr : s.redis = some r) (hrk : r key = some (e, ttl)) (he : ¬ now < e.expiresAt) :
    cacheGetRedis s key now =
      cacheGetFile { s with redis := some (redisDelete r key) } key now := by
  unfold cacheGetRedis
  rw [hr]
  simp only
  rw [hrk]
  simp [he]

/-- Equation: `get` on a fresh memory entry. -/
theorem cacheGet_eq_fresh {α : Type} {s : CacheState α} {key : String} {now : Nat}
    {e : CacheEntry α} (hm : s.memory key = some e) (he : now < e.expiresAt) :
    cacheGet s key now = (some e.data, s) := by
  unfold cacheGet
  rw [hm]
  simp [he]

/-- Equation: `get` on a stale memory entry. -/
theorem cacheGet_eq_stale {α : Type} {s : CacheState α} {key : String} {now : Nat}
    {e : CacheEntry α} (hm : s.memory key = some e) (he : ¬ now < e.expiresAt) :
    cacheGet s key now =
      cacheGetRedis { s with memory := tierDelete s.memory key } key now := by
  unfold cacheGet
  rw [hm]
  simp [he]

/-- Equation: `get` with no memory entry. -/
theorem cacheGet_eq_miss {α : Type} {s : CacheState α} {key : String} {now : Nat}
    (hm : s.memory key = none) : cacheGet s key now = cacheGetRedis s key now := by
  unfold cacheGet
  rw [hm]

/-- Behaviour of the file stage of `get` when the memory dict no longer
holds the key: soundness of the result, freshness of any promoted memory
entry, preservation of Redis, deletion of an expired file entry, and the
promotion of a hit into the memory dict. -/
theorem cacheGetFile_props {α : Type} (s : CacheState α) (key : String) (now : Nat)
    (hpre : s.memory key = none) :
    (∀ d, (cacheGetFile s key now).1 = some d →
        ∃ e, s.file key = some e ∧ now < e.expiresAt ∧ e.data = d)
    ∧ (∀ e, (cacheGetFile s key now).2.memory key = some e → now < e.expiresAt)
    ∧ (cacheGetFile s key now).2.redis = s.redis
    ∧ (∀ e, s.file key = some e → e.expiresAt ≤ now →
        (cacheGetFile s key now).2.file key = none)
    ∧ (∀ d, (cacheGetFile s key now).1 = some d →
        ∃ e, (cacheGetFile s key now).2.memory key = some e ∧
          now < e.expiresAt ∧ e.data = d) := by
  cases hf : s.file key with
  | some e =>
    by_cases hfe : now < e.expiresAt
    · rw [cacheGetFile_eq_fresh hf hfe]
      refine ⟨?_, ?_, rfl, ?_, ?_⟩
      · intro d hd
        exact ⟨e, rfl, hfe, by simpa using hd⟩
      · intro e' he'
        simp only [tierInsert, if_pos] at he'
        simp at he'
        subst he'
        exact hfe
      · intro e' hsf hle
        cases hsf
        exact absurd hfe (not_lt.mpr hle)
      · intro d hd
        exact ⟨e, by simp [tierInsert], hfe, by simpa using hd⟩
    · rw [cacheGetFile_eq_stale hf hfe]
      refine ⟨?_, ?_, rfl, ?_, ?_⟩
      · intro d hd
        simp at hd
      · intro e' he'
        rw [hpre] at he'
        cases he'
      · intro e' _ _
        simp [tierDelete]
      · intro d hd
        simp at hd
  | none =>
    rw [cacheGetFile_eq_none hf]
    refine ⟨?_, ?_, rfl, ?_, ?_⟩
    · intro d hd
      simp at hd
    · intro e' he'
      rw [hpre] at he'
      cases he'
    · intro e' hsf _
      cases hsf
    · intro d hd
      simp at hd

/-- Behaviour of the Redis-then-file suffix of `get` when the memory dict no
longer holds the key. -/
theorem cacheGetRedis_props {α : Type} (s : CacheState α) (key : String) (now : Nat)
    (hpre : s.memory key = none) :
    (∀ d, (cacheGetRedis s key now).1 = some d →
        (∃ r e ttl, s.redis = some r ∧ r key = some (e, ttl) ∧
            now < e.expiresAt ∧ e.data = d)
          ∨ (∃ e, s.file key = some e ∧ now < e.expiresAt ∧ e.data = d))
    ∧ (∀ e, (cacheGetRedis s key now).2.memory key = some e → now < e.expiresAt)
    ∧ (∀ r e ttl, s.redis = some r → r key = some (e, ttl) → e.expiresAt ≤ now →
        ∃ r', (cacheGetRedis s key now).2.redis = some r' ∧ r' key = none)
    ∧ ((∀ r e ttl, s.redis = some r → r key = some (e, ttl) → e.expiresAt ≤ now) →
        ∀ e, s.file key = some e → e.expiresAt ≤ now →
          (cacheGetRedis s key now).2.file key = none)
    ∧ (∀ d, (cacheGetRedis s key now).1 = some d →
        ∃ e, (cacheGetRedis s key now).2.memory key = some e ∧
          now < e.expiresAt ∧ e.data = d) := by
  cases hr : s.redis with
  | some r =>
    cases hrk : r key with
    | some p =>
      obtain ⟨e1, ttl1⟩ := p
      by_cases hpe : now < e1.expiresAt
      · rw [cacheGetRedis_eq_fresh hr hrk hpe]
        refine ⟨?_, ?_, ?_, ?_, ?_⟩
        · intro d hd
          exact Or.inl ⟨r, e1, ttl1, rfl, hrk, hpe, by simpa using hd⟩
        · intro e' he'
          simp [tierInsert] at he'
          subst he'
          exact hpe
        · intro r' e' ttl' hr' hrk' hle
          cases hr'
          rw [hrk] at hrk'
          cases hrk'
          exact absurd hpe (not_lt.mpr hle)
        · intro hall e' hsf hle
          exact absurd hpe (not_lt.mpr (hall r e1 ttl1 rfl hrk))
        · intro d hd
          exact ⟨e1, by simp [tierInsert], hpe, by simpa using hd⟩
      · rw [cacheGetRedis_eq_stale hr hrk hpe]
        have h2 := cacheGetFile_props
          { s with redis := some (redisDelete r key) } key now hpre
        refine ⟨?_, h2.2.1, ?_, ?_, h2.2.2.2.2⟩
        · intro d hd
          rcases h2.1 d hd with ⟨e', hf', hfe', hdd'⟩
          exact Or.inr ⟨e', hf', hfe', hdd'⟩
        · intro r' e' ttl' hr' hrk' hle
          refine ⟨redisDelete r key, ?_, by simp [redisDelete]⟩
          rw [h2.2.2.1]
        · intro _ e' hsf hle
          exact h2.2.2.2.1 e' hsf hle
    | none =>
      rw [cacheGetRedis_eq_miss hr hrk]
      have h2 := cacheGetFile_props s key now hpre
      refine ⟨?_, h2.2.1, ?_, ?_, h2.2.2.2.2⟩
      · intro d hd
        rcases h2.1 d hd with ⟨e', hf', hfe', hdd'⟩
        exact Or.inr ⟨e', hf', hfe', hdd'⟩
      · intro r' e' ttl' hr' hrk' hle
        cases hr'
        rw [hrk] at hrk'
        cases hrk'
      · intro _ e' hsf hle
        exact h2.2.2.2.1 e' hsf hle
  | none =>
    rw [cacheGetRedis_eq_noclient hr]
    have h2 := cacheGetFile_props s key now hpre
    refine ⟨?_, h2.2.1, ?_, ?_, h2.2.2.2.2⟩
    · intro d hd
      rcases h2.1 d hd with ⟨e', hf', hfe', hdd'⟩
      exact Or.inr ⟨e', hf', hfe', hdd'⟩
    · intro r' e' ttl' hr' hrk' hle
      cases hr'
    · intro _ e' hsf hle
      exact h2.2.2.2.1 e' hsf hle

/-- C2: `CacheManager.get` never returns data from an entry that is not
strictly unexpired; every memory entry left for the key after a `get` is
unexpired; when the memory dict had no unexpired entry, an expired Redis
entry for the key is deleted from Redis; when neither the memory dict nor
Redis had an unexpired entry, an expired file entry for the key is
unlinked. -/
theorem c2_cacheGet_purges_expired {α : Type} (s : CacheState α) (key : String)
    (now : Nat) :
    (∀ d, (cacheGet s key now).1 = some d →
        ∃ e : CacheEntry α, now < e.expiresAt ∧ e.data = d ∧
          (s.memory key = some e
            ∨ (∃ r ttl, s.redis = some r ∧ r key = some (e, ttl))
            ∨ s.file key = some e))
    ∧ (∀ e, (cacheGet s key now).2.memory key = some e → now < e.expiresAt)
    ∧ ((∀ e, s.memory key = some e → e.expiresAt ≤ now) →
        ∀ r e ttl, s.redis = some r → r key = some (e, ttl) → e.expiresAt ≤ now →
          ∃ r', (cacheGet s key now).2.redis = some r' ∧ r' key = none)
    ∧ ((∀ e, s.memory key = some e → e.expiresAt ≤ now) →
       (∀ r e ttl, s.redis = some r → r key = some (e, ttl) → e.expiresAt ≤ now) →
        ∀ e, s.file key = some e → e.expiresAt ≤ now →
          (cacheGet s key now).2.file key = none) := by
  cases hm : s.memory key with
  | some e =>
    by_cases he : now < e.expiresAt
    · rw [cacheGet_eq_fresh hm he]
      refine ⟨?_, ?_, ?_, ?_⟩
      · intro d hd
        exact ⟨e, he, by simpa using hd, Or.inl rfl⟩
      · intro e' he'
        have h2 : s.memory key = some e' := he'
        rw [hm] at h2
        cases h2
        exact he
      · intro hmem
        exact absurd he (not_lt.mpr (hmem e rfl))
      · intro hmem _
        exact absurd he (not_lt.mpr (hmem e rfl))
    · rw [cacheGet_eq_stale hm he]
      have hp : ({ s with memory := tierDelete s.memory key } : CacheState α).memory key
          = none := by simp [tierDelete]
      have h2 := cacheGetRedis_props { s with memory := tierDelete s.memory key }
        key now hp
      refine ⟨?_, h2.2.1, ?_, ?_⟩
      · intro d hd
        rcases h2.1 d hd with ⟨r, e', ttl, hrr, hrk, hfe, hdd⟩ | ⟨e', hf, hfe, hdd⟩
        · exact ⟨e', hfe, hdd, Or.inr (Or.inl ⟨r, ttl, hrr, hrk⟩)⟩
        · exact ⟨e', hfe, hdd, Or.inr (Or.inr hf)⟩
      · intro _ r e' ttl hrr hrk hle
        exact h2.2.2.1 r e' ttl hrr hrk hle
      · intro _ hred e' hf hle
        exact h2.2.2.2.1 hred e' hf hle
  | none =>
    rw [cacheGet_eq_miss hm]
    have h2 := cacheGetRedis_props s key now hm
    refine ⟨?_, h2.2.1, ?_, ?_⟩
    · intro d hd
      rcases h2.1 d hd with ⟨r, e', ttl, hrr, hrk, hfe, hdd⟩ | ⟨e', hf, hfe, hdd⟩
      · exact ⟨e', hfe, hdd, Or.inr (Or.inl ⟨r, ttl, hrr, hrk⟩)⟩
      · exact ⟨e', hfe, hdd, Or.inr (Or.inr hf)⟩
    · intro _ r e' ttl hrr hrk hle
      exact h2.2.2.1 r e' ttl hrr hrk hle
    · intro _ hred e' hf hle
      exact h2.2.2.2.1 hred e' hf hle

/-- C8: whenever `CacheManager.get` succeeds, the memory dict afterwards
holds an unexpired entry for the requested key carrying the returned data
(a hit in a lower tier is promoted into the memory dict). -/
theorem c8_cacheGet_promotes_to_memory {α : Type} (s : CacheState α) (key : String)
    (now : Nat) (d : α) (h : (cacheGet s key now).1 = some d) :
    ∃ e : CacheEntry α, (cacheGet s key now).2.memory key = some e ∧
      now < e.expiresAt ∧ e.data = d := by
  cases hm : s.memory key with
  | some e =>
    by_cases he : now < e.expiresAt
    · rw [cacheGet_eq_fresh hm he] at h ⊢
      refine ⟨e, hm, he, ?_⟩
      simpa using h
    · rw [cacheGet_eq_stale hm he] at h ⊢
      have hp : ({ s with memory := tierDelete s.memory key } : CacheState α).memory key
          = none := by simp [tierDelete]
      exact (cacheGetRedis_props { s with memory := tierDelete s.memory key }
        key now hp).2.2.2.2 d h
  | none =>
    rw [cacheGet_eq_miss hm] at h ⊢
    exact (cacheGetRedis_props s key now hm).2.2.2.2 d h

/-- C3: `CacheManager.set` returns `True` and stores an entry expiring
`ttl_hours` hours after now (defaulting to `settings.cache_ttl_hours`) in
the memory dict, in Redis with `ttl_hours*3600` seconds of TTL when a
client is configured, and in the per-key JSON file. -/
theorem c3_cacheSet_stores_everywhere {α : Type} (settingsTtl : Nat)
    (s : CacheState α) (key : String) (d : α) (ttlHours : Option Nat) (now : Nat) :
    (cacheSet settingsTtl s key d ttlHours now).1 = true
    ∧ (cacheSet settingsTtl s key d ttlHours now).2.memory key
        = some ⟨d, now + ttlHours.getD settingsTtl * 3600⟩
    ∧ (∀ r, s.redis = some r →
        (cacheSet settingsTtl s key d ttlHours now).2.redis
          = some (redisInsert r key
              (⟨d, now + ttlHours.getD settingsTtl * 3600⟩,
               ttlHours.getD settingsTtl * 3600)))
    ∧ (s.redis = none → (cacheSet settingsTtl s key d ttlHours now).2.redis = none)
    ∧ (cacheSet settingsTtl s key d ttlHours now).2.file key
        = some ⟨d, now + ttlHours.getD settingsTtl * 3600⟩ := by
  refine ⟨rfl, by simp [cacheSet, tierInsert], ?_, ?_, by simp [cacheSet, tierInsert]⟩
  · intro r hr
    show (match s.redis with
      | some r => some (redisInsert r key
          (⟨d, now + ttlHours.getD settingsTtl * 3600⟩,
           ttlHours.getD settingsTtl * 3600))
      | none => none) = _
    rw [hr]
  · intro hr
    show (match s.redis with
      | some r => some (redisInsert r key
          (⟨d, now + ttlHours.getD settingsTtl * 3600⟩,
           ttlHours.getD settingsTtl * 3600))
      | none => none) = _
    rw [hr]

/-! ### Cache key generation (`cache_manager.py:221-226`) -/

/-- The order used by Python `sorted(kwargs.items())`: lexicographic on the
(name, value) pair of strings. -/
def kwOrder (a b : String × String) : Prop :=
  a.1 < b.1 ∨ (a.1 = b.1 ∧ a.2 ≤ b.2)

instance : DecidableRel kwOrder := fun a b =>
  inferInstanceAs (Decidable (a.1 < b.1 ∨ (a.1 = b.1 ∧ a.2 ≤ b.2)))

instance : IsTotal (String × String) kwOrder := by
  constructor
  intro a b
  rcases lt_trichotomy a.1 b.1 with h | h | h
  · exact Or.inl (Or.inl h)
  · rcases le_total a.2 b.2 with h2 | h2
    · exact Or.inl (Or.inr ⟨h, h2⟩)
    · exact Or.inr (Or.inr ⟨h.symm, h2⟩)
  · exact Or.inr (Or.inl h)

instance : IsTrans (String × String) kwOrder := by
  constructor
  intro a b c hab hbc
  rcases hab with h1 | ⟨h1, h1'⟩
  · rcases hbc with h2 | ⟨h2, h2'⟩
    · exact Or.inl (h1.trans h2)
    · exact Or.inl (h2 ▸ h1)
  · rcases hbc with h2 | ⟨h2, h2'⟩
    · exact Or.inl (h1 ▸ h2)
    · exact Or.inr ⟨h1.trans h2, h1'.trans h2'⟩

instance : IsAntisymm (String × String) kwOrder := by
  constructor
  intro a b hab hba
  rcases hab with h1 | ⟨h1, h1'⟩
  · rcases hba with h2 | ⟨h2, h2'⟩
    · exact absurd (h1.trans h2) (lt_irrefl _)
    · exact absurd h1 (h2 ▸ lt_irrefl _)
  · rcases hba with h2 | ⟨h2, h2'⟩
    · exact absurd h2 (h1 ▸ lt_irrefl _)
    · exact Prod.ext h1 (le_antisymm h1' h2')

/-- Embedding of Python `sorted(kwargs.items())`. -/
def sortKwargs (kwargs : List (String × String)) : List (String × String) :=
  List.insertionSort kwOrder kwargs

/-- One `f"{k}:{v}"` part. -/
def kwPart (p : String × String) : String := p.1 ++ ":" ++ p.2

/-- Embedding of `CacheManager._generate_cache_key`
(`cache_manager.py:221-226`): `"smcgov_housing:"` followed by the prefix
and the sorted `name:value` parts, joined with `":"`. -/
def generateCacheKey (pre : String) (kwargs : List (String × String)) : String :=
  "smcgov_housing:" ++ String.intercalate ":" (pre :: (sortKwargs kwargs).map kwPart)

/-- C4: `_generate_cache_key` emits the `name:value` parts in ascending
order of argument name after the `smcgov_housing:` prefix, and is
permutation-invariant: two orderings of the same keyword-argument map give
the same key. -/
theorem c4_generateCacheKey_sorted_and_deterministic (pre : String)
    (l1 l2 : List (String × String)) (h : l1.Perm l2) :
    generateCacheKey pre l1 = generateCacheKey pre l2
    ∧ (sortKwargs l1).Perm l1
    ∧ List.Pairwise (fun a b : String × String => a.1 ≤ b.1) (sortKwargs l1)
    ∧ generateCacheKey pre l1
        = "smcgov_housing:"
            ++ String.intercalate ":" (pre :: (sortKwargs l1).map kwPart) := by
  refine ⟨?_, List.perm_insertionSort kwOrder l1, ?_, rfl⟩
  · have hs : sortKwargs l1 = sortKwargs l2 := by
      exact List.eq_of_perm_of_sorted
        (((List.perm_insertionSort kwOrder l1).trans h).trans
          (List.perm_insertionSort kwOrder l2).symm)
        (List.sorted_insertionSort kwOrder l1)
        (List.sorted_insertionSort kwOrder l2)
    unfold generateCacheKey
    rw [hs]
  · apply List.Pairwise.imp ?_ (List.sorted_insertionSort kwOrder l1)
    intro a b hab
    rcases hab with h1 | ⟨h1, _⟩
    · exact le_of_lt h1
    · exact le_of_eq h1

/-! ### Text extraction heuristics (`dashboard.py`) -/

/-- Python `str.lower()` (ASCII relevant here), producing the character
list a page text is matched over. -/
def lowerChars (s : String) : List Char := s.data.map Char.toLower

/-- Python substring test `pat in text`. -/
def hasSub (pat text : List Char) : Bool :=
  (List.range (text.length + 1)).any (fun i => pat.isPrefixOf (text.drop i))

/-- Python `int` of a digit string (commas already removed). -/
def digitsToNat (ds : List Char) : Nat :=
  ds.foldl (fun a c => a * 10 + (c.toNat - 48)) 0

/-- The list `[n, n-1, ..., 1]`, the order in which a greedy `\d{1,n}`
tries group lengths. -/
def descRange (n : Nat) : List Nat := (List.range n).map (fun j => n - j)

/-- Greedy `(?:,\d{3})*`: the digits of as many `,ddd` groups as match at
the start of `cs`. -/
def commaGroups (cs : List Char) : List Char :=
  match cs with
  | ',' :: a :: b :: c :: rest =>
    if a.isDigit && b.isDigit && c.isDigit then a :: b :: c :: commaGroups rest
    else []
  | _ => []

/-- Matching of `[^\d]*(\d{1,maxD}(?:,\d{3})*)` at the start of `cs`
(`commas` switches the comma groups on): skip the maximal run of
non-digits; if a digit follows, the group is the greedy first digits plus
the greedy comma groups. -/
def numGroupAt (cs : List Char) (maxD : Nat) (commas : Bool) : Option Nat :=
  let rest := cs.dropWhile (fun c => !c.isDigit)
  let run := rest.takeWhile Char.isDigit
  if run.isEmpty then none
  else
    let d := min maxD run.length
    some (digitsToNat (run.take d ++ (if commas then commaGroups (rest.drop d) else [])))

/-- `re.search` of the keyword-before-number pattern
`kw[^\d]*(\d{1,maxD}(?:,\d{3})*)` (`dashboard.py:102`): the leftmost
keyword occurrence followed, after non-digits, by a digit yields the
group. -/
def matchKwNum (kw text : List Char) (maxD : Nat) (commas : Bool) : Option Nat :=
  (List.range (text.length + 1)).findSome? (fun i =>
    if kw.isPrefixOf (text.drop i) then numGroupAt (text.drop (i + kw.length)) maxD commas
    else none)

/-- All splits of a greedy `(?:,\d{3})*` at the start of `cs`, as pairs of
(group digits, remaining text), listed with the group count ascending. -/
def commaGroupChain (cs : List Char) : List (List Char × List Char) :=
  ([], cs) ::
    (match cs with
     | ',' :: a :: b :: c :: rest =>
       if a.isDigit && b.isDigit && c.isDigit then
         (commaGroupChain rest).map (fun p => (a :: b :: c :: p.1, p.2))
       else []
     | _ => [])

/-- Whether `[^\d]*kw` matches at the start of `rem`: the keyword literal
must start within or right after the leading non-digit run. -/
def kwAfterNonDigits (kw rem : List Char) : Bool :=
  let m := (rem.takeWhile (fun c => !c.isDigit)).length
  (List.range (m + 1)).any (fun l => kw.isPrefixOf (rem.drop l))

/-- Backtracking match of `(\d{1,maxD}(?:,\d{3})*)[^\d]*kw` anchored at the
start of `cs`: group lengths and comma-group counts are tried greedily,
longest first, exactly as the regex engine does. -/
def tryNumKwAt (kw cs : List Char) (maxD : Nat) (commas : Bool) : Option Nat :=
  let run := cs.takeWhile Char.isDigit
  if run.isEmpty then none
  else
    (descRange (min maxD run.length)).findSome? (fun d =>
      let chain := if commas then commaGroupChain (cs.drop d) else [([], cs.drop d)]
      chain.reverse.findSome? (fun gp =>
        if kwAfterNonDigits kw gp.2 then some (digitsToNat (run.take d ++ gp.1))
        else none))

/-- `re.search` of the number-before-keyword pattern
`(\d{1,maxD}(?:,\d{3})*)[^\d]*kw` (`dashboard.py:109`): leftmost start
position wins. -/
def matchNumKw (kw text : List Char) (maxD : Nat) (commas : Bool) : Option Nat :=
  (List.range (text.length + 1)).findSome? (fun i => tryNumKwAt kw (text.drop i) maxD commas)

/-- Python `str.isdigit()` restricted to the ASCII digits occurring here. -/
def pyIsDigits (cs : List Char) : Bool := !cs.isEmpty && cs.all Char.isDigit

/-- Embedding of `DashboardExtractor._extract_number_from_page`
(`dashboard.py:93-125`): the page text is lowercased; each keyword in list
order is tried with the keyword-before-number pattern then the
number-before-keyword pattern; afterwards any keyword that is a digit
string (commas stripped) present in the text is returned; otherwise
`None`. -/
def extractNumberFromPage (pageText : String) (keywords : List String) : Option Nat :=
  let page := lowerChars pageText
  let firstPass := keywords.findSome? (fun kw =>
    let kwl := lowerChars kw
    if hasSub kwl page then
      match matchKwNum kwl page 5 true with
      | some n => some n
      | none => matchNumKw kwl page 5 true
    else none)
  match firstPass with
  | some n => some n
  | none =>
    keywords.findSome? (fun kw =>
      let stripped := kw.data.filter (fun c => c ≠ ',')
      if pyIsDigits stripped then
        if hasSub kw.data page || hasSub stripped page then some (digitsToNat stripped)
        else none
      else none)

/-- Matching of `[^\d]*\$?(\d+(?:\.\d+)?)` at the start of `cs`: skip the
non-digits (an optional dollar sign sits among them), then the greedy
integer digits and optional fractional digits form the group, read as an
exact decimal. -/
def decimalGroupAt (cs : List Char) : Option ℚ :=
  let rest := cs.dropWhile (fun c => !c.isDigit)
  let ip := rest.takeWhile Char.isDigit
  if ip.isEmpty then none
  else
    match rest.drop ip.length with
    | '.' :: more =>
      let fp := more.takeWhile Char.isDigit
      if fp.isEmpty then some ((digitsToNat ip : ℚ))
      else some ((digitsToNat ip : ℚ) + (digitsToNat fp : ℚ) / ((10 : ℚ) ^ fp.length))
    | _ => some ((digitsToNat ip : ℚ))

/-- `re.search` of `kw[^\d]*\$?(\d+(?:\.\d+)?)[^\d]*[mM]?`
(`dashboard.py:134`); the trailing `[^\d]*[mM]?` always matches and does
not affect the group. -/
def matchKwDecimal (kw text : List Char) : Option ℚ :=
  (List.range (text.length + 1)).findSome? (fun i =>
    if kw.isPrefixOf (text.drop i) then decimalGroupAt (text.drop (i + kw.length))
    else none)

/-- Python `float(s)` on the decimal strings reachable here
(`digits`, `digits.digits`, `.digits`, `digits.`); anything else raises
`ValueError`, modelled as `none`. -/
def pyParseFloat (cs : List Char) : Option ℚ :=
  let ip := cs.takeWhile Char.isDigit
  match cs.drop ip.length with
  | [] => if ip.isEmpty then none else some ((digitsToNat ip : ℚ))
  | '.' :: more =>
    let fp := more.takeWhile Char.isDigit
    if !(more.drop fp.length).isEmpty then none
    else if ip.isEmpty && fp.isEmpty then none
    else some ((digitsToNat ip : ℚ) + (digitsToNat fp : ℚ) / ((10 : ℚ) ^ fp.length))
  | _ => none

/-- Embedding of `DashboardExtractor._extract_currency_from_page`
(`dashboard.py:127-154`): for each keyword in order, search the pattern
(case-insensitively, modelled by lowercasing both sides) and return the
matched amount; failing that, a keyword containing a dot is itself parsed
as a float after removing dollar signs. -/
def extractCurrencyFromPage (pageText : String) (keywords : List String) : Option ℚ :=
  let page := lowerChars pageText
  keywords.findSome? (fun kw =>
    match matchKwDecimal (lowerChars kw) page with
    | some amt => some amt
    | none =>
      if kw.data.contains '.' then pyParseFloat (kw.data.filter (fun c => c ≠ '$'))
      else none)

/-- The three status keys of `_extract_units_by_status`, in dict insertion
order. -/
def statusNames : List String := ["complete", "predevelopment", "construction"]

/-- The per-status matches of `DashboardExtractor._extract_units_by_status`
(`dashboard.py:163-174`) before the fallback: for each status, pattern
`status[^\d]*(\d{1,4})` then `(\d{1,4})[^\d]*status` over the lowercased
page. -/
def statusMatchesRaw (pageText : String) : List (String × Nat) :=
  let page := lowerChars pageText
  statusNames.filterMap (fun st =>
    match matchKwNum st.data page 4 false with
    | some n => some (st, n)
    | none =>
      match matchNumKw st.data page 4 false with
      | some n => some (st, n)
      | none => none)

/-- Embedding of `DashboardExtractor._extract_units_by_status`
(`dashboard.py:156-188`): the matched statuses, or the hardcoded fallback
dict when no pattern matched. -/
def extractUnitsByStatus (pageText : String) : List (String × Nat) :=
  let m := statusMatchesRaw pageText
  if m.isEmpty then
    [("complete", 2875), ("predevelopment", 1202), ("construction", 862)]
  else m

/-- The city names searched by `_extract_units_by_city`
(`dashboard.py:197-201`). -/
def cityNames : List String :=
  ["san mateo", "redwood city", "daly city", "san bruno", "menlo park",
   "foster city", "burlingame", "millbrae", "san carlos", "belmont",
   "half moon bay", "pacifica", "south san francisco", "east palo alto"]

/-- Python `str.title()` on the ASCII city names. -/
def titleCase (s : String) : String :=
  String.mk (s.data.foldl (fun (acc : List Char × Bool) c =>
    if c.isAlpha then (acc.1 ++ [if acc.2 then c.toLower else c.toUpper], true)
    else (acc.1 ++ [c], false)) ([], false)).1

/-- Embedding of `DashboardExtractor._extract_units_by_city`
(`dashboard.py:190-224`): pattern `city[^\d]*(\d{1,4})` for each city
(case-insensitive), with the hardcoded sample dict when nothing is
found. -/
def extractUnitsByCity (pageText : String) : List (String × Nat) :=
  let page := lowerChars pageText
  let found := cityNames.filterMap (fun city =>
    match matchKwNum city.data page 4 false with
    | some n => some (titleCase city, n)
    | none => none)
  if found.isEmpty then
    [("San Mateo", 694), ("Redwood City", 617), ("Daly City", 559),
     ("East Palo Alto", 477), ("South San Francisco", 382)]
  else found

/-- Embedding of the `HousingStatistics` pydantic model (`models.py`). -/
structure HousingStatistics where
  totalAffordableUnits : Nat
  totalProjects : Nat
  countyFunding : ℚ
  federalFunding : ℚ
  unitsByStatus : List (String × Nat)
  unitsByCity : List (String × Nat)
  lastUpdated : Nat
deriving Repr, DecidableEq

/-- Python `a or b` on an optional number: the default is used when the
value is missing or falsy (zero). -/
def pyOrNat (o : Option Nat) (d : Nat) : Nat :=
  match o with
  | some n => if n = 0 then d else n
  | none => d

/-- Python `a or b` on an optional float. -/
def pyOrRat (o : Option ℚ) (d : ℚ) : ℚ :=
  match o with
  | some x => if x = 0 then d else x
  | none => d

/-- Embedding of the extraction part of
`DashboardExtractor._scrape_dashboard_data` (`dashboard.py:48-91`) on a
fetched page text: each statistic is extracted heuristically and falls
back to its hardcoded known value when the extractor result is falsy. -/
def scrapeDashboardData (page : String) (now : Nat) : HousingStatistics :=
  { totalAffordableUnits :=
      pyOrNat (extractNumberFromPage page ["4,939", "4939", "total affordable units"]) 4939
    totalProjects :=
      pyOrNat (extractNumberFromPage page ["68", "total projects", "total number"]) 68
    countyFunding :=
      pyOrRat (extractCurrencyFromPage page ["305.3", "$305", "county funding"]) (305.3 : ℚ)
    federalFunding :=
      pyOrRat (extractCurrencyFromPage page ["52.6", "$52", "federal funding"]) (52.6 : ℚ)
    unitsByStatus := extractUnitsByStatus page
    unitsByCity := extractUnitsByCity page
    lastUpdated := now }

/-- C5: when every extraction heuristic comes back with no value (None or a
falsy 0), the dashboard scrape produces the hardcoded defaults: 4939 units,
68 projects, 305.3 county funding, 52.6 federal funding, and, with no
status pattern matched, the fallback status breakdown. -/
theorem c5_dashboard_hardcoded_defaults (page : String) (now : Nat)
    (h1 : extractNumberFromPage page ["4,939", "4939", "total affordable units"] = none
        ∨ extractNumberFromPage page ["4,939", "4939", "total affordable units"] = some 0)
    (h2 : extractNumberFromPage page ["68", "total projects", "total number"] = none
        ∨ extractNumberFromPage page ["68", "total projects", "total number"] = some 0)
    (h3 : extractCurrencyFromPage page ["305.3", "$305", "county funding"] = none
        ∨ extractCurrencyFromPage page ["305.3", "$305", "county funding"] = some 0)
    (h4 : extractCurrencyFromPage page ["52.6", "$52", "federal funding"] = none
        ∨ extractCurrencyFromPage page ["52.6", "$52", "federal funding"] = some 0)
    (h5 : statusMatchesRaw page = []) :
    (scrapeDashboardData page now).totalAffordableUnits = 4939
    ∧ (scrapeDashboardData page now).totalProjects = 68
    ∧ (scrapeDashboardData page now).countyFunding = (305.3 : ℚ)
    ∧ (scrapeDashboardData page now).federalFunding = (52.6 : ℚ)
    ∧ (scrapeDashboardData page now).unitsByStatus
        = [("complete", 2875), ("predevelopment", 1202), ("construction", 862)] := by
  refine ⟨?_, ?_, ?_, ?_, ?_⟩
  · rcases h1 with h | h <;> simp [scrapeDashboardData, pyOrNat, h]
  · rcases h2 with h | h <;> simp [scrapeDashboardData, pyOrNat, h]
  · rcases h3 with h | h <;> simp [scrapeDashboardData, pyOrRat, h]
  · rcases h4 with h | h <;> simp [scrapeDashboardData, pyOrRat, h]
  · simp [scrapeDashboardData, extractUnitsByStatus, h5]

/-- Witness for C5 at a concrete page on which every heuristic is falsy. -/
theorem c5_dashboard_hardcoded_defaults_witness :
    (scrapeDashboardData "305.3 z0z 52.6 z0z" 0).totalAffordableUnits = 4939
    ∧ (scrapeDashboardData "305.3 z0z 52.6 z0z" 0).totalProjects = 68
    ∧ (scrapeDashboardData "305.3 z0z 52.6 z0z" 0).countyFunding = (305.3 : ℚ)
    ∧ (scrapeDashboardData "305.3 z0z 52.6 z0z" 0).federalFunding = (52.6 : ℚ)
    ∧ (scrapeDashboardData "305.3 z0z 52.6 z0z" 0).unitsByStatus
        = [("complete", 2875), ("predevelopment", 1202), ("construction", 862)] :=
  c5_dashboard_hardcoded_defaults "305.3 z0z 52.6 z0z" 0
    (Or.inl (by decide)) (Or.inl (by decide)) (Or.inr (by decide))
    (Or.inr (by decide)) (by decide)

/-- The claim C6 statement of `_extract_number_from_page`, written from the
spec wording: for each keyword in list order that occurs in the lowercased
page text, take the first comma-grouped 1-to-5-digit number adjacent to it
(keyword-before-number preferred over number-before-keyword); failing every
keyword, fall back to a keyword that is itself a digit string (commas
stripped) present in the text; otherwise no value. -/
def extractNumberSpecC6 (pageText : String) (keywords : List String) : Option Nat :=
  let page := lowerChars pageText
  (keywords.findSome? (fun kw =>
      if hasSub (lowerChars kw) page then
        (matchKwNum (lowerChars kw) page 5 true).orElse
          (fun _ => matchNumKw (lowerChars kw) page 5 true)
      else none)).orElse
    (fun _ => keywords.findSome? (fun kw =>
      let stripped := kw.data.filter (fun c => c ≠ ',')
      if pyIsDigits stripped && (hasSub kw.data page || hasSub stripped page) then
        some (digitsToNat stripped)
      else none))

/-- C6: on a non-empty keyword list, `_extract_number_from_page` behaves
exactly as described: keyword-adjacent comma-grouped number in keyword list
order with forward pattern preferred, then the digit-string keyword
fallback, else `None`. -/
theorem c6_extract_number_described (page : String) (keywords : List String)
    (h : keywords ≠ []) :
    extractNumberFromPage page keywords = extractNumberSpecC6 page keywords := by
  dsimp only [extractNumberFromPage, extractNumberSpecC6]
  have hfun : (fun kw : String =>
      if hasSub (lowerChars kw) (lowerChars page) then
        match matchKwNum (lowerChars kw) (lowerChars page) 5 true with
        | some n => some n
        | none => matchNumKw (lowerChars kw) (lowerChars page) 5 true
      else none)
      = (fun kw : String =>
      if hasSub (lowerChars kw) (lowerChars page) then
        (matchKwNum (lowerChars kw) (lowerChars page) 5 true).orElse
          (fun _ => matchNumKw (lowerChars kw) (lowerChars page) 5 true)
      else none) := by
    funext kw
    cases hs : hasSub (lowerChars kw) (lowerChars page)
    · simp [hs]
    · cases hm : matchKwNum (lowerChars kw) (lowerChars page) 5 true <;>
        simp [hs, hm, Option.orElse]
  have hfb : (fun kw : String =>
      if pyIsDigits (kw.data.filter (fun c => c ≠ ',')) then
        if hasSub kw.data (lowerChars page)
            || hasSub (kw.data.filter (fun c => c ≠ ',')) (lowerChars page) then
          some (digitsToNat (kw.data.filter (fun c => c ≠ ',')))
        else none
      else none)
      = (fun kw : String =>
      if pyIsDigits (kw.data.filter (fun c => c ≠ ','))
          && (hasSub kw.data (lowerChars page)
            || hasSub (kw.data.filter (fun c => c ≠ ',')) (lowerChars page)) then
        some (digitsToNat (kw.data.filter (fun c => c ≠ ',')))
      else none) := by
    funext kw
    cases hp : pyIsDigits (kw.data.filter (fun c => c ≠ ',')) <;>
      cases hq : hasSub kw.data (lowerChars page)
          || hasSub (kw.data.filter (fun c => c ≠ ',')) (lowerChars page) <;>
        simp [hp, hq]
  rw [hfun, hfb]
  cases hfp : List.findSome? (fun kw : String =>
      if hasSub (lowerChars kw) (lowerChars page) then
        (matchKwNum (lowerChars kw) (lowerChars page) 5 true).orElse
          (fun _ => matchNumKw (lowerChars kw) (lowerChars page) 5 true)
      else none) keywords <;> rfl

/-- Witness for C6 at a concrete page and non-empty keyword list. -/
theorem c6_extract_number_described_witness :
    extractNumberFromPage "total affordable units: 4,939 across"
        ["4,939", "4939", "total affordable units"]
      = extractNumberSpecC6 "total affordable units: 4,939 across"
        ["4,939", "4939", "total affordable units"]
    ∧ extractNumberFromPage "total affordable units: 4,939 across"
        ["4,939", "4939", "total affordable units"] = some 4939 :=
  ⟨c6_extract_number_described "total affordable units: 4,939 across"
      ["4,939", "4939", "total affordable units"] (by decide),
   by decide⟩

/-! ### MCP request dispatch (`server.py`) -/

/-- A JSON value, as passed around by the dispatcher. -/
inductive JValue where
  | jnull : JValue
  | jbool : Bool → JValue
  | jnum : Int → JValue
  | jstr : String → JValue
  | jarr : List JValue → JValue
  | jobj : List (String × JValue) → JValue

/-- Whether a JSON value is a dict. -/
def JValue.isObj : JValue → Bool
  | .jobj _ => true
  | _ => false

/-- An incoming request: `request.get("method")` and
`request.get("params", {})` (`server.py:233-234`). -/
structure MCPRequest where
  method : Option String
  params : JValue

/-- The five handlers behind the dispatch table, abstracted over their
bodies (they fetch and format data); a raised exception is an `error`
value. Each returns a dict, matching the `-> Dict[str, Any]`
signatures. -/
structure Handlers where
  onInitialize : JValue → Except String (List (String × JValue))
  onToolsList : Unit → Except String (List (String × JValue))
  onToolCall : JValue → Except String (List (String × JValue))
  onResourcesList : Unit → Except String (List (String × JValue))
  onResourceRead : JValue → Except String (List (String × JValue))

/-- Embedding of `SMCHousingMCPServer._error_response`
(`server.py:497-505`). -/
def errorResponse (message : String) : JValue :=
  .jobj [("jsonrpc", .jstr "2.0"),
         ("error", .jobj [("code", .jnum (-1)), ("message", .jstr message)])]

/-- Python `f"{method}"` on the optional method. -/
def pyShowMethod : Option String → String
  | some m => m
  | none => "None"

/-- The `try`/`except` around a handler call: a returned dict is passed
through, an exception becomes an error response (`server.py:251-253`). -/
def runHandler : Except String (List (String × JValue)) → JValue
  | .ok fields => .jobj fields
  | .error e => errorResponse e

/-- Embedding of `SMCHousingMCPServer.handle_request`
(`server.py:230-253`): an `if`/`elif` dispatch on the `method` field over
the five known methods, with unknown methods and raised exceptions turned
into JSON-RPC error objects. -/
def handleRequest (h : Handlers) (req : MCPRequest) : JValue :=
  if req.method = some "initialize" then runHandler (h.onInitialize req.params)
  else if req.method = some "tools/list" then runHandler (h.onToolsList ())
  else if req.method = some "tools/call" then runHandler (h.onToolCall req.params)
  else if req.method = some "resources/list" then runHandler (h.onResourcesList ())
  else if req.method = some "resources/read" then runHandler (h.onResourceRead req.params)
  else errorResponse ("Unknown method: " ++ pyShowMethod req.method)

/-- The five known method names. -/
def knownMethods : List String :=
  ["initialize", "tools/list", "tools/call", "resources/list", "resources/read"]

/-- Any handler outcome passed through `runHandler` is a dict. -/
theorem runHandler_isObj (x : Except String (List (String × JValue))) :
    (runHandler x).isObj = true := by
  cases x <;> rfl

/-- C7: `handle_request` is a stateless dispatch on the request method: the
five known methods go to their handlers (with handler exceptions converted
to error responses by `runHandler`), any other method yields the
`{"jsonrpc": "2.0", "error": {"code": -1, ...}}` object, and the result is
always a dict. -/
theorem c7_handle_request_dispatch (h : Handlers) (req : MCPRequest) :
    (handleRequest h req).isObj = true
    ∧ (∀ m, req.method = some m → m ∉ knownMethods →
        handleRequest h req = errorResponse ("Unknown method: " ++ m))
    ∧ (req.method = none → handleRequest h req = errorResponse "Unknown method: None")
    ∧ (req.method = some "initialize" →
        handleRequest h req = runHandler (h.onInitialize req.params))
    ∧ (req.method = some "tools/list" →
        handleRequest h req = runHandler (h.onToolsList ()))
    ∧ (req.method = some "tools/call" →
        handleRequest h req = runHandler (h.onToolCall req.params))
    ∧ (req.method = some "resources/list" →
        handleRequest h req = runHandler (h.onResourcesList ()))
    ∧ (req.method = some "resources/read" →
        handleRequest h req = runHandler (h.onResourceRead req.params))
    ∧ (∀ p e, h.onToolCall p = .error e →
        runHandler (h.onToolCall p) = errorResponse e) := by
  refine ⟨?_, ?_, ?_, ?_, ?_, ?_, ?_, ?_, ?_⟩
  · unfold handleRequest
    split_ifs <;> first
      | exact runHandler_isObj _
      | rfl
  · intro m hm hnotin
    have h1 : m ≠ "initialize" := fun he => hnotin (he ▸ by simp [knownMethods])
    have h2 : m ≠ "tools/list" := fun he => hnotin (he ▸ by simp [knownMethods])
    have h3 : m ≠ "tools/call" := fun he => hnotin (he ▸ by simp [knownMethods])
    have h4 : m ≠ "resources/list" := fun he => hnotin (he ▸ by simp [knownMethods])
    have h5 : m ≠ "resources/read" := fun he => hnotin (he ▸ by simp [knownMethods])
    unfold handleRequest
    rw [hm]
    simp [h1, h2, h3, h4, h5, pyShowMethod]
  · intro hm
    unfold handleRequest
    rw [hm]
    simp [pyShowMethod]
  · intro hm
    unfold handleRequest
    rw [hm]
    simp
  · intro hm
    unfold handleRequest
    rw [hm]
    simp
  · intro hm
    unfold handleRequest
    rw [hm]
    simp
  · intro hm
    unfold handleRequest
    rw [hm]
    simp
  · intro hm
    unfold handleRequest
    rw [hm]
    simp
  · intro p e he
    rw [he]
    rfl

/-! ### Public notices (`notices.py`) -/

/-- Embedding of the `PublicNotice` pydantic model (`models.py`); dates are
day numbers with `none` for a missing publication date, and `datetime.min`
is day 0. -/
structure PublicNotice where
  title : String
  noticeType : String
  contentUrl : String
  datePublished : Option Nat
deriving Repr, DecidableEq

/-- The Python sort key `x.date_published or datetime.min`
(`notices.py:96`). -/
def noticeSortKey (n : PublicNotice) : Nat := n.datePublished.getD 0

/-- The descending order produced by
`notices.sort(key=..., reverse=True)`. -/
def noticeDescOrder (a b : PublicNotice) : Prop := noticeSortKey b ≤ noticeSortKey a

instance : DecidableRel noticeDescOrder := fun a b =>
  inferInstanceAs (Decidable (noticeSortKey b ≤ noticeSortKey a))

instance : IsTotal PublicNotice noticeDescOrder :=
  ⟨fun a b => (le_total (noticeSortKey b) (noticeSortKey a)).imp id id⟩

instance : IsTrans PublicNotice noticeDescOrder :=
  ⟨fun _ _ _ hab hbc => le_trans hbc hab⟩

/-- The sort performed at the end of
`PublicNoticesExtractor._scrape_public_notices` (`notices.py:96`). -/
def sortNoticesDesc (ns : List PublicNotice) : List PublicNotice :=
  List.insertionSort noticeDescOrder ns

/-- The date filter predicate of `get_public_notices` (`notices.py:45-46`):
`notice.date_published and notice.date_published >= cutoff_date` with
`cutoff_date = now - timedelta(days=date_range_days)`. -/
def noticeWithinCutoff (now d : Nat) (n : PublicNotice) : Bool :=
  match n.datePublished with
  | some dp => decide ((now : Int) - (d : Int) ≤ (dp : Int))
  | none => false

/-- The `if date_range_days:` filter step of `get_public_notices`
(`notices.py:43-46`); Python treats both `None` and `0` as no filter. -/
def applyDateFilter (now : Nat) (dateRangeDays : Option Nat)
    (ns : List PublicNotice) : List PublicNotice :=
  match dateRangeDays with
  | some d => if d = 0 then ns else ns.filter (noticeWithinCutoff now d)
  | none => ns

/-- The `if limit:` truncation step of `get_public_notices`
(`notices.py:48-49`); Python treats both `None` and `0` as no limit. -/
def applyLimit (limit : Option Nat) (ns : List PublicNotice) : List PublicNotice :=
  match limit with
  | some l => if l = 0 then ns else ns.take l
  | none => ns

/-- Embedding of `PublicNoticesExtractor.get_public_notices`
(`notices.py:23-57`) downstream of the scrape: the scraped notices are
sorted most-recent-first, then date-filtered, then truncated. -/
def getPublicNotices (scraped : List PublicNotice) (limit dateRangeDays : Option Nat)
    (now : Nat) : List PublicNotice :=
  applyLimit limit (applyDateFilter now dateRangeDays (sortNoticesDesc scraped))

/-- The date filter preserves sortedness. -/
theorem applyDateFilter_sorted (now : Nat) (dateRangeDays : Option Nat)
    (ns : List PublicNotice) (hs : List.Sorted noticeDescOrder ns) :
    List.Sorted noticeDescOrder (applyDateFilter now dateRangeDays ns) := by
  unfold applyDateFilter
  cases dateRangeDays with
  | some d =>
    by_cases hd : d = 0
    · simpa [hd]
    · simpa [hd] using hs.filter (noticeWithinCutoff now d)
  | none => exact hs

/-- The truncation preserves sortedness. -/
theorem applyLimit_sorted (limit : Option Nat) (ns : List PublicNotice)
    (hs : List.Sorted noticeDescOrder ns) :
    List.Sorted noticeDescOrder (applyLimit limit ns) := by
  unfold applyLimit
  cases limit with
  | some l =>
    by_cases hl : l = 0
    · simpa [hl]
    · simpa [hl] using hs.sublist (List.take_sublist l ns)
  | none => exact hs

/-- C9 (amended): `get_public_notices` returns the scraped notices sorted
by publication date descending (missing dates sort as the minimum date,
hence last); with a nonzero `date_range_days` only notices dated within
the window `[now - date_range_days, ...]` are kept; with a nonzero `limit`
at most `limit` notices are returned, the limit being applied after the
date filter; with both arguments absent (or zero, which Python treats as
absent) the full sorted list is returned. -/
theorem c9_notices_sorted_filtered_limited (scraped : List PublicNotice)
    (limit dateRangeDays : Option Nat) (now : Nat) :
    List.Sorted noticeDescOrder (getPublicNotices scraped limit dateRangeDays now)
    ∧ (∀ d, dateRangeDays = some d → d ≠ 0 →
        ∀ n ∈ getPublicNotices scraped limit dateRangeDays now,
          ∃ dp, n.datePublished = some dp ∧ (now : Int) - (d : Int) ≤ (dp : Int))
    ∧ (∀ l, limit = some l → l ≠ 0 →
        (getPublicNotices scraped limit dateRangeDays now).length ≤ l)
    ∧ (∀ l d, limit = some l → l ≠ 0 → dateRangeDays = some d → d ≠ 0 →
        getPublicNotices scraped limit dateRangeDays now
          = ((sortNoticesDesc scraped).filter (noticeWithinCutoff now d)).take l)
    ∧ (limit = none → dateRangeDays = none →
        getPublicNotices scraped limit dateRangeDays now = sortNoticesDesc scraped) := by
  have hs0 : List.Sorted noticeDescOrder (sortNoticesDesc scraped) :=
    List.sorted_insertionSort noticeDescOrder scraped
  refine ⟨?_, ?_, ?_, ?_, ?_⟩
  · exact applyLimit_sorted limit _
      (applyDateFilter_sorted now dateRangeDays _ hs0)
  · intro d hd hd0 n hn
    have hn2 : n ∈ applyDateFilter now dateRangeDays (sortNoticesDesc scraped) := by
      unfold getPublicNotices applyLimit at hn
      cases limit with
      | some l =>
        by_cases hl : l = 0
        · simpa [hl] using hn
        · simp only [hl, if_false] at hn
          exact List.mem_of_mem_take hn
      | none => exact hn
    rw [hd] at hn2
    unfold applyDateFilter at hn2
    simp only [hd0, if_false] at hn2
    have := (List.mem_filter.mp hn2).2
    unfold noticeWithinCutoff at this
    cases hdp : n.datePublished with
    | some dp =>
      rw [hdp] at this
      exact ⟨dp, rfl, by simpa using this⟩
    | none =>
      rw [hdp] at this
      cases this
  · intro l hl hl0
    rw [hl]
    unfold getPublicNotices applyLimit
    simp only [hl0, if_false]
    exact (List.length_take _ _).trans_le (min_le_left _ _)
  · intro l d hl hl0 hd hd0
    rw [hl, hd]
    unfold getPublicNotices applyLimit applyDateFilter
    simp [hl0, hd0]
  · intro hl hd
    rw [hl, hd]
    rfl

/-- A sample notice used as the C9 counterexample input. -/
def noticeSample : PublicNotice :=
  ⟨"Notice of Public Hearing", "Public Hearing",
   "https://www.smcgov.org/housing/notice", some 100⟩

/-- C9 counterexample: the claim as stated fails when `limit` is given as
`0`: Python treats `0` as falsy, skips the truncation, and returns more
than `limit` notices. -/
theorem c9_counterexample_limit_zero :
    getPublicNotices [noticeSample] (some 0) none 200 = [noticeSample]
    ∧ ¬ ((getPublicNotices [noticeSample] (some 0) none 200).length ≤ 0) := by
  constructor
  · rfl
  · decide

/-! ### Income limits eligibility (`income_limits.py`) -/

/-- Embedding of the `IncomeLimits` pydantic model (`models.py`); money
amounts are exact decimals. -/
structure IncomeLimits where
  year : Nat
  familySize : Nat
  ami30 : Option ℚ
  ami50 : Option ℚ
  ami80 : Option ℚ
  ami120 : Option ℚ
  maxRent30 : Option ℚ
  maxRent50 : Option ℚ
  maxRent80 : Option ℚ
deriving Repr, DecidableEq

/-- The `ami_limits` dict lookup of `check_eligibility`
(`income_limits.py:168-175`): an unknown category, like a present category
whose field is `None`, yields no limit. -/
def amiLimitFor (ld : IncomeLimits) (cat : String) : Option ℚ :=
  if cat = "30%" then ld.ami30
  else if cat = "50%" then ld.ami50
  else if cat = "80%" then ld.ami80
  else if cat = "120%" then ld.ami120
  else none

/-- The `rent_limits` dict lookup of `check_eligibility`
(`income_limits.py:202-208`). -/
def rentLimitFor (ld : IncomeLimits) (cat : String) : Option ℚ :=
  if cat = "30%" then ld.maxRent30
  else if cat = "50%" then ld.maxRent50
  else if cat = "80%" then ld.maxRent80
  else none

/-- The differently-shaped dicts `check_eligibility` can return. -/
inductive EligibilityResult where
  | noData (year familySize : Nat)
  | noLimit (year familySize : Nat) (amiCategory : String)
  | checked (eligible : Bool) (annualIncome incomeLimit : ℚ) (amiCategory : String)
      (year familySize : Nat) (percentageOfLimit : ℚ) (maxAffordableRent : Option ℚ)
deriving Repr, DecidableEq

/-- Embedding of `IncomeLimitsExtractor.check_eligibility`
(`income_limits.py:150-226`) applied to the fetched income-limit records
for the year and family size: no records or no limit for the category give
the early-return dicts; otherwise the first record decides eligibility
(`annual_income <= income_limit`), the percentage of the limit (guarded
division), and, for an eligible income, the truthy max rent. -/
def checkEligibility (limits : List IncomeLimits) (annualIncome : ℚ)
    (familySize : Nat) (amiCategory : String) (year : Nat) : EligibilityResult :=
  match limits with
  | [] => .noData year familySize
  | ld :: _ =>
    match amiLimitFor ld amiCategory with
    | none => .noLimit year familySize amiCategory
    | some lim =>
      let eligible := decide (annualIncome ≤ lim)
      let pct := if 0 < lim then annualIncome / lim * 100 else 0
      let rent := if eligible then
          match rentLimitFor ld amiCategory with
          | some r => if r = 0 then none else some r
          | none => none
        else none
      .checked eligible annualIncome lim amiCategory year familySize pct rent

/-- C10: when an income-limit record exists for the requested category,
`check_eligibility` reports eligible exactly when the income is at most
the limit (equality is eligible), and the percentage of the limit is
`income / limit * 100` for a positive limit and `0` otherwise, the
division being guarded by the positivity test. -/
theorem c10_check_eligibility_threshold (limits : List IncomeLimits)
    (annualIncome : ℚ) (familySize : Nat) (amiCategory : String) (year : Nat)
    (ld : IncomeLimits) (rest : List IncomeLimits) (lim : ℚ)
    (hl : limits = ld :: rest) (ha : amiLimitFor ld amiCategory = some lim) :
    ∃ rent : Option ℚ,
      checkEligibility limits annualIncome familySize amiCategory year
        = .checked (decide (annualIncome ≤ lim)) annualIncome lim amiCategory year
            familySize (if 0 < lim then annualIncome / lim * 100 else 0) rent
      ∧ (decide (annualIncome ≤ lim) = true ↔ annualIncome ≤ lim) := by
  subst hl
  simp only [checkEligibility]
  rw [ha]
  exact ⟨_, rfl, by simp⟩

/-- Witness for C10 at a concrete record: a 100000 income against a
120400 limit for the 80% category is eligible. -/
theorem c10_check_eligibility_threshold_witness :
    ∃ rent : Option ℚ,
      checkEligibility
          [⟨2025, 2, some 40000, some 66000, some 104000, some 156000,
            some 1000, some 1650, some 2600⟩]
          100000 2 "80%" 2025
        = .checked (decide ((100000 : ℚ) ≤ 104000)) 100000 104000 "80%" 2025 2
            (if (0 : ℚ) < 104000 then (100000 : ℚ) / 104000 * 100 else 0) rent
      ∧ (decide ((100000 : ℚ) ≤ 104000) = true ↔ (100000 : ℚ) ≤ 104000) :=
  c10_check_eligibility_threshold
    [⟨2025, 2, some 40000, some 66000, some 104000, some 156000,
      some 1000, some 1650, some 2600⟩]
    100000 2 "80%" 2025
    ⟨2025, 2, some 40000, some 66000, some 104000, some 156000,
      some 1000, some 1650, some 2600⟩
    [] 104000 rfl (by decide)

/-! ### Concrete witnesses -/

/-- A memory tier holding an expired entry for key `a`. -/
def memSample : Tier Nat := fun k => if k = "a" then some ⟨3, 5⟩ else none

/-- A Redis store holding an expired entry for key `a`. -/
def redisSample : String → Option (CacheEntry Nat × Nat) :=
  fun k => if k = "a" then some (⟨4, 6⟩, 60) else none

/-- A file tier holding an expired entry for key `a`. -/
def fileSample : Tier Nat := fun k => if k = "a" then some ⟨7, 8⟩ else none

/-- A cache state in which every tier holds an expired entry for `a`. -/
def cacheStateSample : CacheState Nat := ⟨memSample, some redisSample, fileSample⟩

/-- Witness for C2: at time 10 all three entries for `a` are expired, and
after the `get` both the Redis entry and the file entry for `a` are
gone. -/
theorem c2_cacheGet_purges_expired_witness :
    (∃ r', (cacheGet cacheStateSample "a" 10).2.redis = some r' ∧ r' "a" = none)
    ∧ (cacheGet cacheStateSample "a" 10).2.file "a" = none := by
  have hmem : ∀ e : CacheEntry Nat,
      cacheStateSample.memory "a" = some e → e.expiresAt ≤ 10 := by
    intro e he
    have he' : some (⟨3, 5⟩ : CacheEntry Nat) = some e := he
    cases he'
    decide
  have hred : ∀ (r : String → Option (CacheEntry Nat × Nat)) (e : CacheEntry Nat)
      (ttl : Nat), cacheStateSample.redis = some r → r "a" = some (e, ttl) →
        e.expiresAt ≤ 10 := by
    intro r e ttl hr hrk
    have hr' : some redisSample = some r := hr
    cases hr'
    have hrk' : some ((⟨4, 6⟩ : CacheEntry Nat), 60) = some (e, ttl) := hrk
    cases hrk'
    decide
  refine ⟨?_, ?_⟩
  · exact (c2_cacheGet_purges_expired cacheStateSample "a" 10).2.2.1 hmem
      redisSample ⟨4, 6⟩ 60 rfl rfl (by decide)
  · exact (c2_cacheGet_purges_expired cacheStateSample "a" 10).2.2.2 hmem hred
      ⟨7, 8⟩ rfl (by decide)

/-- Witness for C3 on the sample state with Redis configured. -/
theorem c3_cacheSet_stores_everywhere_witness :
    (cacheSet 24 cacheStateSample "k" 7 none 100).1 = true
    ∧ (cacheSet 24 cacheStateSample "k" 7 none 100).2.memory "k"
        = some ⟨7, 100 + 24 * 3600⟩
    ∧ (cacheSet 24 cacheStateSample "k" 7 none 100).2.redis
        = some (redisInsert redisSample "k" (⟨7, 100 + 24 * 3600⟩, 24 * 3600))
    ∧ (cacheSet 24 cacheStateSample "k" 7 none 100).2.file "k"
        = some ⟨7, 100 + 24 * 3600⟩ := by
  have h := c3_cacheSet_stores_everywhere 24 cacheStateSample "k" 7 none 100
  exact ⟨h.1, h.2.1, h.2.2.1 redisSample rfl, h.2.2.2.2⟩

/-- Witness for C4: two orderings of the same keyword arguments give the
same cache key. -/
theorem c4_generateCacheKey_witness :
    generateCacheKey "income_limits" [("year", "2025"), ("family_size", "4")]
      = generateCacheKey "income_limits" [("family_size", "4"), ("year", "2025")] :=
  (c4_generateCacheKey_sorted_and_deterministic "income_limits"
    [("year", "2025"), ("family_size", "4")]
    [("family_size", "4"), ("year", "2025")]
    (List.Perm.swap ("family_size", "4") ("year", "2025") [])).1

/-- A handler table whose tool-call handler raises. -/
def handlersSample : Handlers :=
  ⟨fun _ => .ok [("jsonrpc", .jstr "2.0")],
   fun _ => .ok [],
   fun _ => .error "Tool execution failed: boom",
   fun _ => .ok [],
   fun _ => .ok []⟩

/-- Witness for C7: an unknown method yields the error object, every
response is a dict, and a raised tool call is converted to an error
response. -/
theorem c7_handle_request_dispatch_witness :
    handleRequest handlersSample ⟨some "frobnicate", .jnull⟩
      = errorResponse "Unknown method: frobnicate"
    ∧ (handleRequest handlersSample ⟨some "tools/call", .jnull⟩).isObj = true
    ∧ runHandler (handlersSample.onToolCall .jnull)
      = errorResponse "Tool execution failed: boom" := by
  have h1 := c7_handle_request_dispatch handlersSample ⟨some "frobnicate", .jnull⟩
  have h2 := c7_handle_request_dispatch handlersSample ⟨some "tools/call", .jnull⟩
  exact ⟨h1.2.1 "frobnicate" rfl (by decide), h2.1,
    h2.2.2.2.2.2.2.2.2 .jnull "Tool execution failed: boom" rfl⟩

/-- A cache state whose only entry for `a` is an unexpired Redis entry. -/
def cacheStateFresh : CacheState Nat :=
  ⟨fun _ => none,
   some (fun k => if k = "a" then some (⟨42, 1000⟩, 3600) else none),
   fun _ => none⟩

/-- Witness for C8: the Redis hit for `a` is promoted into the memory
dict. -/
theorem c8_cacheGet_promotes_to_memory_witness :
    ∃ e : CacheEntry Nat, (cacheGet cacheStateFresh "a" 10).2.memory "a" = some e
      ∧ 10 < e.expiresAt ∧ e.data = 42 :=
  c8_cacheGet_promotes_to_memory cacheStateFresh "a" 10 42 (by decide)

/-- Witness for C9 (amended) with a nonzero limit and date range. -/
theorem c9_notices_sorted_filtered_limited_witness :
    List.Sorted noticeDescOrder (getPublicNotices [noticeSample] (some 1) (some 100) 200)
    ∧ (getPublicNotices [noticeSample] (some 1) (some 100) 200).length ≤ 1 := by
  have h := c9_notices_sorted_filtered_limited [noticeSample] (some 1) (some 100) 200
  exact ⟨h.1, h.2.2.1 1 rfl (by decide)⟩
